import Mathlib

/-!
Verification of the poll-based futures library (src/src/lib.rs) against its
natural-language specification (spec.md).

The embedding mirrors the Rust source shallowly:

* Rust `Result<T, E>` is `RResult T E` (constructors `Ok` / `Err`), with the
  `map`, `map_err` and `or_else` methods of `std::result::Result` that the
  source uses (`RResult.map`, `RResult.mapErr`, `RResult.orElse`).
* The trait `Future` (`fn poll(self) -> Result<Result<Item, Error>, Self>`)
  becomes the class `Futures.Future σ Item Error` with
  `poll : σ → RResult (RResult Item Error) σ`: outer `Ok outcome` is
  "Ready(outcome)", outer `Err s` is "Pending with continuation s".
* The trait `IntoFuture` becomes the class `Futures.IntoFuture`, with the
  blanket identity instance for futures and the wrapping instance for bare
  `Result` values, exactly as in the source.
* Each combinator struct/enum of the source is a Lean structure/inductive of
  the same shape, and its `poll` is a plain function translated clause by
  clause from the Rust `impl Future for …` block; Rust early `return`s are
  rendered by putting the shared tail (`second.poll().map_err(…)`) in both
  positions where control reaches it.
-/

set_option autoImplicit false

namespace Futures

/-- Rust `std::result::Result<T, E>`. -/
inductive RResult (T E : Type) : Type where
  | Ok : T → RResult T E
  | Err : E → RResult T E
deriving DecidableEq, Repr

namespace RResult

/-- Rust `Result::map`. -/
def map {T U E : Type} (r : RResult T E) (f : T → U) : RResult U E :=
  match r with
  | .Ok t => .Ok (f t)
  | .Err e => .Err e

/-- Rust `Result::map_err`. -/
def mapErr {T E E2 : Type} (r : RResult T E) (f : E → E2) : RResult T E2 :=
  match r with
  | .Ok t => .Ok t
  | .Err e => .Err (f e)

/-- Rust `Result::or_else`. -/
def orElse {T E E2 : Type} (r : RResult T E) (f : E → RResult T E2) : RResult T E2 :=
  match r with
  | .Ok t => .Ok t
  | .Err e => f e

end RResult

/-- The `Future` trait: `fn poll(self) -> Result<Result<Item, Error>, Self>`.
The outer `Ok` is "Ready with an outcome", the outer `Err` is "Pending,
carrying the sole valid continuation". -/
class Future (σ : Type) (Item Error : outParam Type) where
  poll : σ → RResult (RResult Item Error) σ

export Future (poll)

/-- The `IntoFuture` trait: conversion of a value into a future of state type
`Fut` with the given item and error types. -/
class IntoFuture (σ : Type) (Fut Item Error : outParam Type) where
  into_future : σ → Fut

export IntoFuture (into_future)

/-- `impl<F: Future> IntoFuture for F { fn into_future(self) -> F { self } }` -/
instance (priority := low) futureIntoFuture {σ T E : Type} [Future σ T E] :
    IntoFuture σ σ T E where
  into_future s := s

/-- `pub struct FutureResult<T, E> { inner: Result<T, E> }` -/
structure FutureResult (T E : Type) : Type where
  inner : RResult T E
deriving DecidableEq, Repr

/-- `impl<T, E> IntoFuture for Result<T, E>`: wrap as a `FutureResult`. -/
instance resultIntoFuture {T E : Type} : IntoFuture (RResult T E) (FutureResult T E) T E where
  into_future r := { inner := r }

/-- `impl<T, E> Future for FutureResult<T, E>`: `fn poll(self) { Ok(self.inner) }` -/
def FutureResult.poll {T E : Type} (self : FutureResult T E) :
    RResult (RResult T E) (FutureResult T E) :=
  .Ok self.inner

instance instFutureFutureResult {T E : Type} : Future (FutureResult T E) T E where
  poll := FutureResult.poll

/-- `pub struct Map<A, F> { future: A, f: F }` (the closure type is made
concrete: `f : T → U`). -/
structure Map (A : Type) (T U : Type) : Type where
  future : A
  f : T → U

/-- `impl Future for Map`: poll the inner future; on Ready apply
`result.map(self.f)`, on Pending rebuild `Map` around the continuation. -/
def Map.poll {A T U E : Type} [Future A T E] (self : Map A T U) :
    RResult (RResult U E) (Map A T U) :=
  match Future.poll self.future with
  | .Ok result => .Ok (result.map self.f)
  | .Err f => .Err { future := f, f := self.f }

instance instFutureMap {A T U E : Type} [Future A T E] : Future (Map A T U) U E where
  poll := Map.poll

/-- `pub struct MapErr<A, F> { future: A, f: F }` (closure made concrete:
`f : E → E2`). -/
structure MapErr (A : Type) (E E2 : Type) : Type where
  future : A
  f : E → E2

/-- `impl Future for MapErr`: poll the inner future; on Ready apply
`result.map_err(self.f)`, on Pending rebuild `MapErr` around the
continuation. -/
def MapErr.poll {A T E E2 : Type} [Future A T E] (self : MapErr A E E2) :
    RResult (RResult T E2) (MapErr A E E2) :=
  match Future.poll self.future with
  | .Ok result => .Ok (result.mapErr self.f)
  | .Err f => .Err { future := f, f := self.f }

instance instFutureMapErr {A T E E2 : Type} [Future A T E] : Future (MapErr A E E2) T E2 where
  poll := MapErr.poll

/-- The inner enum `_AndThen<A, B, F> { First(A, F), Second(B) }`.  The closure
type is concrete (`T → B` with `B` the `IntoFuture` source type); `BF` is
`B::Future`, the type stored in `Second`. -/
inductive AndThenState (A BF : Type) (T B : Type) : Type where
  | First : A → (T → B) → AndThenState A BF T B
  | Second : BF → AndThenState A BF T B

/-- `pub struct AndThen<A, B, F> { future: _AndThen<A, B::Future, F> }` -/
structure AndThen (A BF : Type) (T B : Type) : Type where
  future : AndThenState A BF T B

/-- `impl Future for AndThen` (`fn poll`): in `First`, poll the first future;
on `Ok(Ok(next))` build `f(next).into_future()` as `second` and fall through to
`second.poll().map_err(|b| AndThen { future: _AndThen::Second(b) })`; on
`Ok(Err(e))` return `Ok(Err(e))`; on `Err(a)` return Pending in `First`.  In
`Second`, the stored future is `second` and the same tail runs.  Rust's early
`return`s are rendered by duplicating the shared tail in each branch that
reaches it. -/
def AndThen.poll {A BF T B T2 E : Type} [Future A T E]
    [IntoFuture B BF T2 E] [Future BF T2 E] (self : AndThen A BF T B) :
    RResult (RResult T2 E) (AndThen A BF T B) :=
  match self.future with
  | .First a f =>
    match Future.poll a with
    | .Ok (.Ok next) =>
      (Future.poll (into_future (f next) : BF)).mapErr fun b =>
        { future := .Second b }
    | .Ok (.Err e) => .Ok (.Err e)
    | .Err a => .Err { future := .First a f }
  | .Second b =>
    (Future.poll b).mapErr fun b => { future := .Second b }

instance instFutureAndThen {A BF T B T2 E : Type} [Future A T E]
    [IntoFuture B BF T2 E] [Future BF T2 E] : Future (AndThen A BF T B) T2 E where
  poll := AndThen.poll

/-- The inner enum `_OrElse<A, B, F> { First(A, F), Second(B) }`; the closure
is `E → B`, `BF` is `B::Future`. -/
inductive OrElseState (A BF : Type) (E B : Type) : Type where
  | First : A → (E → B) → OrElseState A BF E B
  | Second : BF → OrElseState A BF E B

/-- `pub struct OrElse<A, B, F> { future: _OrElse<A, B::Future, F> }` -/
structure OrElse (A BF : Type) (E B : Type) : Type where
  future : OrElseState A BF E B

/-- `impl Future for OrElse` (`fn poll`): mirror of `AndThen.poll` with the
roles of `Ok(Ok(next))` and `Ok(Err(e))` swapped: success passes through,
failure invokes the continuation. -/
def OrElse.poll {A BF T E B E2 : Type} [Future A T E]
    [IntoFuture B BF T E2] [Future BF T E2] (self : OrElse A BF E B) :
    RResult (RResult T E2) (OrElse A BF E B) :=
  match self.future with
  | .First a f =>
    match Future.poll a with
    | .Ok (.Ok next) => .Ok (.Ok next)
    | .Ok (.Err e) =>
      (Future.poll (into_future (f e) : BF)).mapErr fun b =>
        { future := .Second b }
    | .Err a => .Err { future := .First a f }
  | .Second b =>
    (Future.poll b).mapErr fun b => { future := .Second b }

instance instFutureOrElse {A BF T E B E2 : Type} [Future A T E]
    [IntoFuture B BF T E2] [Future BF T E2] : Future (OrElse A BF E B) T E2 where
  poll := OrElse.poll

/-- `impl<T> Future for Receiver<T>` works through
`try_recv() -> Ok(msg) | Err(Empty) | Err(Disconnected)`; this mirrors
`std::sync::mpsc::TryRecvError`. -/
inductive TryRecvError : Type where
  | Empty : TryRecvError
  | Disconnected : TryRecvError
deriving DecidableEq, Repr

/-- `std::sync::mpsc::RecvError`, a unit struct. -/
structure RecvError : Type where
deriving DecidableEq, Repr

/-- Modelled from the spec: the external non-blocking single-consumer queue
behind `std::sync::mpsc::Receiver<T>` (its `try_recv` is library code outside
this repository).  §6: "any primitive exposing
`try_receive() -> Value | Empty | Disconnected`; no other properties of that
primitive are assumed."  The handle is modelled with the queue contents it can
still observe: the buffered messages in order, and whether the sender side is
gone. -/
structure Receiver (T : Type) : Type where
  queue : List T
  disconnected : Bool
deriving DecidableEq, Repr

/-- Modelled from the spec (§6, §4.5): one non-blocking receive.  A buffered
message is delivered first; with nothing buffered the result is
`Disconnected` when the producer is gone, else `Empty`. -/
def Receiver.try_recv {T : Type} (self : Receiver T) :
    RResult (T × Receiver T) TryRecvError :=
  match self.queue with
  | msg :: rest => .Ok (msg, { self with queue := rest })
  | [] => if self.disconnected then .Err .Disconnected else .Err .Empty

/-- `impl<T> Future for Receiver<T>` (`fn poll`): one `try_recv`;
`Ok(msg) => Ok(Ok(msg))`, `Err(Empty) => Err(self)`,
`Err(Disconnected) => Ok(Err(RecvError))`. -/
def Receiver.poll {T : Type} (self : Receiver T) :
    RResult (RResult T RecvError) (Receiver T) :=
  match self.try_recv with
  | .Ok (msg, _) => .Ok (.Ok msg)
  | .Err .Empty => .Err self
  | .Err .Disconnected => .Ok (.Err {})

instance instFutureReceiver {T : Type} : Future (Receiver T) T RecvError where
  poll := Receiver.poll

/-- `pub struct Empty<T, E> { _marker: PhantomData<(T, E)> }` -/
structure Empty (T E : Type) : Type where
deriving DecidableEq, Repr

/-- `Empty::new()` -/
def Empty.new {T E : Type} : Empty T E := {}

/-- `impl<T, E> Future for Empty<T, E>` (`fn poll`): `Err(self)`. -/
def Empty.poll {T E : Type} (self : Empty T E) :
    RResult (RResult T E) (Empty T E) :=
  .Err self

instance instFutureEmpty {T E : Type} : Future (Empty T E) T E where
  poll := Empty.poll

/-- `pub struct Select<A, B> { a: A, b: B }` -/
structure Select (A B : Type) : Type where
  a : A
  b : B

/-- `impl Future for Select` (`fn poll`):
`a.poll().or_else(|a| b.poll().map_err(|b| Select { a, b }))`. -/
def Select.poll {A B T E : Type} [Future A T E] [Future B T E]
    (self : Select A B) : RResult (RResult T E) (Select A B) :=
  (Future.poll self.a).orElse fun a =>
    (Future.poll self.b).mapErr fun b => { a := a, b := b }

instance instFutureSelect {A B T E : Type} [Future A T E] [Future B T E] :
    Future (Select A B) T E where
  poll := Select.poll

/-- The inner enum
`_Join<A, B> { Both(A, B), First(A, Result<B::Item, A::Error>),
Second(Result<A::Item, A::Error>, B) }`: `First` holds the still-pending
first future together with the second side's already-captured outcome,
`Second` the mirror. -/
inductive JoinState (A B : Type) (TA TB E : Type) : Type where
  | Both : A → B → JoinState A B TA TB E
  | First : A → RResult TB E → JoinState A B TA TB E
  | Second : RResult TA E → B → JoinState A B TA TB E

/-- `pub struct Join<A, B> { state: _Join<A, B> }` -/
structure Join (A B : Type) (TA TB E : Type) : Type where
  state : JoinState A B TA TB E

/-- `impl Future for Join` (`fn poll`): first compute the pair `(a, b)` of
poll results — polling both sides in `Both`, and re-injecting a stored outcome
as an already-`Ok` result in `First`/`Second` — then match:
`(Ok(Err(e)), _) | (_, Ok(Err(e))) => Ok(Err(e))` (the or-pattern is split in
source order), `(Ok(Ok(a)), Ok(Ok(b))) => Ok(Ok((a, b)))`, and the three
Pending re-packings. -/
def Join.poll {A B TA TB E : Type} [Future A TA E] [Future B TB E]
    (self : Join A B TA TB E) :
    RResult (RResult (TA × TB) E) (Join A B TA TB E) :=
  let ab :
      RResult (RResult TA E) A × RResult (RResult TB E) B :=
    match self.state with
    | .Both a b => (Future.poll a, Future.poll b)
    | .First a b => (Future.poll a, .Ok b)
    | .Second a b => (.Ok a, Future.poll b)
  match ab with
  | (.Ok (.Err e), _) => .Ok (.Err e)
  | (_, .Ok (.Err e)) => .Ok (.Err e)
  | (.Ok (.Ok a), .Ok (.Ok b)) => .Ok (.Ok (a, b))
  | (.Err a, .Ok b) => .Err { state := .First a b }
  | (.Ok a, .Err b) => .Err { state := .Second a b }
  | (.Err a, .Err b) => .Err { state := .Both a b }

instance instFutureJoin {A B TA TB E : Type} [Future A TA E] [Future B TB E] :
    Future (Join A B TA TB E) (TA × TB) E where
  poll := Join.poll

/-! Constructor methods of the `Future` trait (they only build the combinator
values; all behavior lives in the `poll` functions above). -/

/-- `fn map<F, U>(self, f: F) -> Map<Self, F>` -/
def Future.map {σ T E U : Type} [Future σ T E] (self : σ) (f : T → U) : Map σ T U :=
  { future := self, f := f }

/-- `fn map_err<F, E2>(self, f: F) -> MapErr<Self, F>` -/
def Future.map_err {σ T E E2 : Type} [Future σ T E] (self : σ) (f : E → E2) :
    MapErr σ E E2 :=
  { future := self, f := f }

/-- `fn and_then<F, B>(self, f: F) -> AndThen<Self, B, F>`:
`AndThen { future: _AndThen::First(self, f) }`. -/
def Future.and_then {σ T E B BF T2 : Type} [Future σ T E] [IntoFuture B BF T2 E]
    (self : σ) (f : T → B) : AndThen σ BF T B :=
  { future := .First self f }

/-- `fn or_else<F, B>(self, f: F) -> OrElse<Self, B, F>`:
`OrElse { future: _OrElse::First(self, f) }`. -/
def Future.or_else {σ T E B BF E2 : Type} [Future σ T E] [IntoFuture B BF T E2]
    (self : σ) (f : E → B) : OrElse σ BF E B :=
  { future := .First self f }

/-- `fn select<B>(self, other: B) -> Select<Self, B::Future>`:
`Select { a: self, b: other.into_future() }`. -/
def Future.select {σ T E B BF : Type} [Future σ T E] [IntoFuture B BF T E]
    (self : σ) (other : B) : Select σ BF :=
  { a := self, b := into_future other }

/-- `fn join<B>(self, other: B) -> Join<Self, B::Future>`:
`Join { state: _Join::Both(self, other.into_future()) }`. -/
def Future.join {σ T E B BF T2 : Type} [Future σ T E] [IntoFuture B BF T2 E]
    [Future BF T2 E] (self : σ) (other : B) : Join σ BF T T2 E :=
  { state := .Both self (into_future other) }

/-! Driving a future by repeated polling.  `iterPending step n s` follows the
chain of Pending continuations for `n` polls: `some s'` means all `n` polls
returned Pending and `s'` is the continuation after them; `none` means the
future completed strictly within those polls. -/

/-- Follow `n` Pending steps of a poll function. -/
def iterPending {σ ρ : Type} (step : σ → RResult ρ σ) : Nat → σ → Option σ
  | 0, s => some s
  | n + 1, s =>
    match step s with
    | .Ok _ => none
    | .Err s2 => iterPending step n s2

/-! Internal phases of the sequential and concurrent state machines, for the
one-way-transition invariant (§3): `First < Second` for `AndThen`/`OrElse`,
and for `Join` the `Both` phase precedes each `Done` phase while the two
`Done` phases are unordered (neither ever reaches the other). -/

/-- Phase index of an `AndThen` state machine: Phase A = 0, Phase B = 1. -/
def AndThen.phase {A BF T B : Type} (self : AndThen A BF T B) : Nat :=
  match self.future with
  | .First _ _ => 0
  | .Second _ => 1

/-- Phase index of an `OrElse` state machine: Phase A = 0, Phase B = 1. -/
def OrElse.phase {A BF E B : Type} (self : OrElse A BF E B) : Nat :=
  match self.future with
  | .First _ _ => 0
  | .Second _ => 1

/-- The phase tags of the `Join` state machine. -/
inductive JoinPhase : Type where
  | Both : JoinPhase
  | FirstDone : JoinPhase
  | SecondDone : JoinPhase
deriving DecidableEq, Repr

/-- Phase tag of a `Join` state machine.  In the source enum, `First(a, b)`
keeps the FIRST future still pending with the SECOND side's outcome already
captured, so it is the spec's `SecondDone` phase; `Second(a, b)` is the
spec's `FirstDone` phase. -/
def Join.phase {A B TA TB E : Type} (self : Join A B TA TB E) : JoinPhase :=
  match self.state with
  | .Both _ _ => .Both
  | .First _ _ => .SecondDone
  | .Second _ _ => .FirstDone

/-- One-way order on `Join` phases: `Both` may move to either `Done` phase; a
`Done` phase only ever stays where it is. -/
def JoinPhase.le : JoinPhase → JoinPhase → Bool
  | .Both, _ => true
  | .FirstDone, .FirstDone => true
  | .SecondDone, .SecondDone => true
  | _, _ => false

/-! Effect-explicit rendering of `Join.poll`.  In Rust, polling a sub-future
may have side effects that outlive the discarded poll result (for the receive
adapter: removing a message from the channel shared with the sender).  To make
that observable, the same source function is translated once more with the
effect threaded through an explicit world `W`: a sub-future's poll is
`σ → W → (poll result × W)`, and the tuple `(a.poll(), b.poll())` of the
`Both` arm evaluates left to right exactly as Rust does.  The match on the
pair of results is the one from `Join.poll`, unchanged. -/

/-- `Join::poll` with the side effects of sub-future polls made explicit as a
world `W` threaded left to right. -/
def Join.pollW {W A B TA TB E : Type}
    (pollA : A → W → RResult (RResult TA E) A × W)
    (pollB : B → W → RResult (RResult TB E) B × W)
    (self : Join A B TA TB E) (w : W) :
    RResult (RResult (TA × TB) E) (Join A B TA TB E) × W :=
  let abw :
      (RResult (RResult TA E) A × RResult (RResult TB E) B) × W :=
    match self.state with
    | .Both a b =>
      let aw := pollA a w
      let bw := pollB b aw.2
      ((aw.1, bw.1), bw.2)
    | .First a b =>
      let aw := pollA a w
      ((aw.1, .Ok b), aw.2)
    | .Second a b =>
      let bw := pollB b w
      ((.Ok a, bw.1), bw.2)
  (match abw.1 with
   | (.Ok (.Err e), _) => .Ok (.Err e)
   | (_, .Ok (.Err e)) => .Ok (.Err e)
   | (.Ok (.Ok a), .Ok (.Ok b)) => .Ok (.Ok (a, b))
   | (.Err a, .Ok b) => .Err { state := .First a b }
   | (.Ok a, .Err b) => .Err { state := .Second a b }
   | (.Err a, .Err b) => .Err { state := .Both a b },
   abw.2)

/-- A pure poll lifted to the effect-explicit form: it never touches the
world (exactly how every combinator other than the receive adapter behaves,
e.g. `FutureResult.poll`). -/
def pollPure {W σ T E : Type} (step : σ → RResult (RResult T E) σ)
    (s : σ) (w : W) : RResult (RResult T E) σ × W :=
  (step s, w)

/-- `Receiver::poll` in effect-explicit form: the handle itself carries no
data (`Unit`), the channel state is the world, and the one `try_recv` of a
poll updates it — so a dequeue stays visible even when the poll result is
discarded. -/
def Receiver.pollW {T : Type} (_self : Unit) (w : Receiver T) :
    RResult (RResult T RecvError) Unit × Receiver T :=
  match w.try_recv with
  | .Ok (msg, w2) => (.Ok (.Ok msg), w2)
  | .Err .Empty => (.Err (), w)
  | .Err .Disconnected => (.Ok (.Err {}), w)

/-! ### Theorems for the claims -/

/-- C1: a Resolved future (`FutureResult`) built from any precomputed Outcome
returns Ready with that exact Outcome on its first poll — never Pending — and
in particular a `Failure(e)` outcome comes back as `Ready(Failure(e))` with
`e` preserved exactly. -/
theorem futureResult_first_poll_ready {T E : Type} (o : RResult T E) :
    FutureResult.poll { inner := o } = .Ok o ∧
    ∀ e : E, FutureResult.poll { inner := (.Err e : RResult T E) } = .Ok (.Err e) :=
  ⟨rfl, fun _ => rfl⟩

/-- C5: `map(f)` turns `Ready(Success(v))` into `Ready(Success(f v))`, passes
`Ready(Failure(e))` through unchanged (the result does not depend on `f`),
and on Pending stays Pending retaining `f` on the advanced inner future;
`map_err(g)` is the mirror image on the Failure branch. -/
theorem map_mapErr_poll_spec {A T U E E2 : Type} [Future A T E]
    (a : A) (f : T → U) (g : E → E2) :
    (∀ v, Future.poll a = .Ok (.Ok v) →
      Map.poll { future := a, f := f } = .Ok (.Ok (f v))) ∧
    (∀ e, Future.poll a = .Ok (.Err e) →
      Map.poll { future := a, f := f } = .Ok (.Err e)) ∧
    (∀ a2, Future.poll a = .Err a2 →
      Map.poll { future := a, f := f } = .Err { future := a2, f := f }) ∧
    (∀ e, Future.poll a = .Ok (.Err e) →
      MapErr.poll { future := a, f := g } = .Ok (.Err (g e))) ∧
    (∀ v, Future.poll a = .Ok (.Ok v) →
      MapErr.poll { future := a, f := g } = .Ok (.Ok v)) ∧
    (∀ a2, Future.poll a = .Err a2 →
      MapErr.poll { future := a, f := g } = .Err { future := a2, f := g }) := by
  refine ⟨fun v h => ?_, fun e h => ?_, fun a2 h => ?_,
    fun e h => ?_, fun v h => ?_, fun a2 h => ?_⟩ <;>
    simp [Map.poll, MapErr.poll, h, RResult.map, RResult.mapErr]

/-- Witness for C5 at a concrete resolved future. -/
theorem map_mapErr_poll_spec_witness :
    Future.poll (⟨.Ok 1⟩ : FutureResult Nat Nat) = .Ok (.Ok 1) ∧
    Map.poll { future := (⟨.Ok 1⟩ : FutureResult Nat Nat), f := Nat.succ } =
      .Ok (.Ok 2) :=
  ⟨rfl,
    (map_mapErr_poll_spec (⟨.Ok 1⟩ : FutureResult Nat Nat) Nat.succ
      (id : Nat → Nat)).1 1 rfl⟩

/-- C8: the never-completing future returns Pending with itself (an equivalent
never-completing continuation) on every poll, so arbitrarily many successive
polls all stay Pending and never produce Ready. -/
theorem empty_poll_never_ready {T E : Type} :
    (∀ s : Empty T E, Empty.poll s = .Err s) ∧
    (∀ (n : Nat) (s : Empty T E), iterPending Empty.poll n s = some s) := by
  refine ⟨fun s => rfl, fun n => ?_⟩
  induction n with
  | zero => intro s; rfl
  | succ n ih => intro s; simpa [iterPending, Empty.poll] using ih s

/-- C7: the receive adapter's poll does one non-blocking receive and maps its
three outcomes: nothing buffered and the producer still connected gives
Pending with the adapter itself; nothing buffered and the producer gone gives
`Ready(Failure(disconnected))`; a buffered message gives
`Ready(Success(msg))`. -/
theorem receiver_poll_spec {T : Type} (self : Receiver T) :
    (self.queue = [] → self.disconnected = false →
      Receiver.poll self = .Err self) ∧
    (self.queue = [] → self.disconnected = true →
      Receiver.poll self = .Ok (.Err {})) ∧
    (∀ (msg : T) (rest : List T), self.queue = msg :: rest →
      Receiver.poll self = .Ok (.Ok msg)) := by
  obtain ⟨q, d⟩ := self
  refine ⟨fun hq hd => ?_, fun hq hd => ?_, fun msg rest hq => ?_⟩ <;>
    subst hq <;>
    first
      | (subst hd; simp [Receiver.poll, Receiver.try_recv])
      | simp [Receiver.poll, Receiver.try_recv]

/-- Witness for C7: one buffered message is delivered as Success. -/
theorem receiver_poll_spec_witness :
    (⟨[5], false⟩ : Receiver Nat).queue = 5 :: [] ∧
    Receiver.poll (⟨[5], false⟩ : Receiver Nat) = .Ok (.Ok 5) :=
  ⟨rfl, (receiver_poll_spec (⟨[5], false⟩ : Receiver Nat)).2.2 5 [] rfl⟩

/-- C2: polling an `and_then` future in Phase A polls the first sub-future.
On `Ready(Success(v))` it invokes the continuation on `v`, converts the
result with `into_future`, moves to Phase B and polls that second sub-future
once before returning (the right-hand side below is exactly that one poll,
with a Pending repacked in Phase B).  On `Ready(Failure(e))` it returns
`Ready(Failure(e))` at once and the continuation is never invoked (the result
is the same for every continuation).  On Pending it stays in Phase A holding
the advanced first sub-future. -/
theorem andThen_poll_phaseA_spec {A BF T B T2 E : Type} [Future A T E]
    [IntoFuture B BF T2 E] [Future BF T2 E] (a : A) (f : T → B) :
    (∀ v, Future.poll a = .Ok (.Ok v) →
      AndThen.poll (Future.and_then a f) =
        (Future.poll (into_future (f v) : BF)).mapErr
          (fun b => { future := .Second b })) ∧
    (∀ e, Future.poll a = .Ok (.Err e) →
      AndThen.poll (Future.and_then a f) = .Ok (.Err e)) ∧
    (∀ e (g : T → B), Future.poll a = .Ok (.Err e) →
      AndThen.poll (Future.and_then a f) =
        AndThen.poll (Future.and_then a g)) ∧
    (∀ a2, Future.poll a = .Err a2 →
      AndThen.poll (Future.and_then a f) =
        .Err { future := .First a2 f }) := by
  refine ⟨fun v h => ?_, fun e h => ?_, fun e g h => ?_, fun a2 h => ?_⟩ <;>
    simp [AndThen.poll, Future.and_then, h]

/-- Witness for C2: the chained success case of §8's testable property 5,
`Success(1).and_then(|v| Success(v+1))` polls to `Ready(Success(2))` — the
continuation's bare `Result` goes through `into_future`. -/
theorem andThen_poll_phaseA_spec_witness :
    Future.poll (⟨.Ok 1⟩ : FutureResult Nat Nat) = .Ok (.Ok 1) ∧
    AndThen.poll (Future.and_then (⟨.Ok 1⟩ : FutureResult Nat Nat)
      (fun v => (.Ok (v + 1) : RResult Nat Nat))) = .Ok (.Ok 2) := by
  refine ⟨rfl, ?_⟩
  have h := (andThen_poll_phaseA_spec (⟨.Ok 1⟩ : FutureResult Nat Nat)
    (fun v => (.Ok (v + 1) : RResult Nat Nat))).1 1 rfl
  exact h.trans rfl

/-- C4: polling a `select` polls the first future; a Ready first outcome is
returned as is, without the second future influencing the result (it is the
same for every second future).  If the first is Pending, the second is polled
and a Ready outcome of it is returned.  If both are Pending, the result is
Pending holding both advanced continuations.  A Ready first outcome wins even
when the second would also be ready, since the first is polled first. -/
theorem select_poll_spec {A B T E : Type} [Future A T E] [Future B T E]
    (a : A) (b : B) :
    (∀ r, Future.poll a = .Ok r →
      Select.poll { a := a, b := b } = .Ok r ∧
      ∀ b2 : B, Select.poll { a := a, b := b2 } = .Ok r) ∧
    (∀ a2 r, Future.poll a = .Err a2 → Future.poll b = .Ok r →
      Select.poll { a := a, b := b } = .Ok r) ∧
    (∀ a2 b2, Future.poll a = .Err a2 → Future.poll b = .Err b2 →
      Select.poll { a := a, b := b } = .Err { a := a2, b := b2 }) := by
  refine ⟨fun r h => ⟨?_, fun b2 => ?_⟩, fun a2 r h hb => ?_,
    fun a2 b2 h hb => ?_⟩
  · simp [Select.poll, h, RResult.orElse]
  · simp [Select.poll, h, RResult.orElse]
  · simp [Select.poll, h, hb, RResult.orElse, RResult.mapErr]
  · simp [Select.poll, h, hb, RResult.orElse, RResult.mapErr]

/-- Witness for C4: §8's testable property 6 — the first future immediately
Ready against a never-completing second. -/
theorem select_poll_spec_witness :
    Future.poll (⟨.Ok 1⟩ : FutureResult Nat Nat) = .Ok (.Ok 1) ∧
    Select.poll { a := (⟨.Ok 1⟩ : FutureResult Nat Nat),
                  b := (Empty.new : Empty Nat Nat) } = .Ok (.Ok 1) :=
  ⟨rfl,
    ((select_poll_spec (⟨.Ok 1⟩ : FutureResult Nat Nat)
      (Empty.new : Empty Nat Nat)).1 (.Ok 1) rfl).1⟩

/-- C3: one poll of a `join`.  In the `Both` phase (conjuncts 1–7): a Failure
from either polled side is returned as `Ready(Failure(e))` with the other
side's result discarded (a first-side Failure wins when both fail); two
Successes give `Ready(Success((va, vb)))`; one side Pending with the other
Success moves to the corresponding Done state storing that Success and
returns Pending; both Pending stays in `Both` with the advanced futures.  In
a Done state (conjuncts 8–13) only the still-unresolved side is polled — the
stored outcome enters the result verbatim, the resolved side's future is no
longer even part of the state — with the analogous outcomes. -/
theorem join_poll_spec {A B TA TB E : Type} [Future A TA E] [Future B TB E]
    (a : A) (b : B) :
    (∀ e, Future.poll a = .Ok (.Err e) →
      Join.poll { state := .Both a b } = .Ok (.Err e)) ∧
    (∀ va e, Future.poll a = .Ok (.Ok va) → Future.poll b = .Ok (.Err e) →
      Join.poll { state := .Both a b } = .Ok (.Err e)) ∧
    (∀ a2 e, Future.poll a = .Err a2 → Future.poll b = .Ok (.Err e) →
      Join.poll { state := .Both a b } = .Ok (.Err e)) ∧
    (∀ va vb, Future.poll a = .Ok (.Ok va) → Future.poll b = .Ok (.Ok vb) →
      Join.poll { state := .Both a b } = .Ok (.Ok (va, vb))) ∧
    (∀ a2 vb, Future.poll a = .Err a2 → Future.poll b = .Ok (.Ok vb) →
      Join.poll { state := .Both a b } = .Err { state := .First a2 (.Ok vb) }) ∧
    (∀ va b2, Future.poll a = .Ok (.Ok va) → Future.poll b = .Err b2 →
      Join.poll { state := .Both a b } = .Err { state := .Second (.Ok va) b2 }) ∧
    (∀ a2 b2, Future.poll a = .Err a2 → Future.poll b = .Err b2 →
      Join.poll { state := .Both a b } = .Err { state := .Both a2 b2 }) ∧
    (∀ e vb, Future.poll a = .Ok (.Err e) →
      Join.poll (B := B) { state := .First a (.Ok vb) } = .Ok (.Err e)) ∧
    (∀ va vb, Future.poll a = .Ok (.Ok va) →
      Join.poll (B := B) { state := .First a (.Ok vb) } =
        .Ok (.Ok (va, vb))) ∧
    (∀ a2 (vb : TB), Future.poll a = .Err a2 →
      Join.poll (B := B) { state := .First a (.Ok vb) } =
        .Err { state := .First a2 (.Ok vb) }) ∧
    (∀ e va, Future.poll b = .Ok (.Err e) →
      Join.poll (A := A) { state := .Second (.Ok va) b } = .Ok (.Err e)) ∧
    (∀ va vb, Future.poll b = .Ok (.Ok vb) →
      Join.poll (A := A) { state := .Second (.Ok va) b } =
        .Ok (.Ok (va, vb))) ∧
    (∀ b2 (va : TA), Future.poll b = .Err b2 →
      Join.poll (A := A) { state := .Second (.Ok va) b } =
        .Err { state := .Second (.Ok va) b2 }) := by
  refine ⟨fun e h => ?_, fun va e h hb => ?_, fun a2 e h hb => ?_,
    fun va vb h hb => ?_, fun a2 vb h hb => ?_, fun va b2 h hb => ?_,
    fun a2 b2 h hb => ?_, fun e vb h => ?_, fun va vb h => ?_,
    fun a2 vb h => ?_, fun e va h => ?_, fun va vb h => ?_,
    fun b2 va h => ?_⟩
  all_goals simp [Join.poll, h]
  all_goals rw [‹Future.poll b = _›]

/-- Witness for C3: §8's testable property 7,
`Success(1).join(Success(2))` polls to `Ready(Success((1, 2)))`. -/
theorem join_poll_spec_witness :
    Future.poll (⟨.Ok 1⟩ : FutureResult Nat Nat) = .Ok (.Ok 1) ∧
    Future.poll (⟨.Ok 2⟩ : FutureResult Nat Nat) = .Ok (.Ok 2) ∧
    Join.poll { state := .Both (⟨.Ok 1⟩ : FutureResult Nat Nat)
                               (⟨.Ok 2⟩ : FutureResult Nat Nat) } =
      .Ok (.Ok (1, 2)) :=
  ⟨rfl, rfl,
    (join_poll_spec (⟨.Ok 1⟩ : FutureResult Nat Nat)
      (⟨.Ok 2⟩ : FutureResult Nat Nat)).2.2.2.1 1 2 rfl rfl⟩

/-- C10: a `join` in the `Both` phase always polls BOTH sub-futures before
inspecting either result — `(a.poll(), b.poll())` is built first, the match
runs afterwards.  In the effect-explicit rendering: the world coming out of
the poll is always the one left by polling `b` in the world left by polling
`a` (first conjunct, with no assumption on the outcomes), and in particular
when `a`'s poll yields Failure the call still returns `Ready(Failure(e))`
(second conjunct) while the world keeps `b`'s side effect — the second side's
advanced state itself is discarded, as the returned value shows. -/
theorem joinW_both_always_polls_second {W A B TA TB E : Type}
    (pollA : A → W → RResult (RResult TA E) A × W)
    (pollB : B → W → RResult (RResult TB E) B × W)
    (a : A) (b : B) (w : W) :
    (Join.pollW pollA pollB { state := .Both a b } w).2 =
      (pollB b (pollA a w).2).2 ∧
    (∀ e, (pollA a w).1 = .Ok (.Err e) →
      (Join.pollW pollA pollB { state := .Both a b } w).1 = .Ok (.Err e)) := by
  constructor
  · simp [Join.pollW]
  · intro e h
    simp [Join.pollW, h]

/-- Witness for C10: a resolved Failure joined with a receive adapter over a
channel holding one message — the poll returns the Failure, yet the message
has been dequeued from the channel (world `⟨[7], …⟩` became `⟨[], …⟩`) and
then thrown away. -/
theorem joinW_both_always_polls_second_witness :
    (pollPure FutureResult.poll (⟨.Err {}⟩ : FutureResult Nat RecvError)
        (⟨[7], false⟩ : Receiver Nat)).1 = .Ok (.Err {}) ∧
    (Join.pollW (pollPure FutureResult.poll) Receiver.pollW
        { state := .Both (⟨.Err {}⟩ : FutureResult Nat RecvError) () }
        (⟨[7], false⟩ : Receiver Nat)).1 = .Ok (.Err {}) ∧
    (Join.pollW (pollPure FutureResult.poll) Receiver.pollW
        { state := .Both (⟨.Err {}⟩ : FutureResult Nat RecvError) () }
        (⟨[7], false⟩ : Receiver Nat)).2 = ⟨[], false⟩ := by
  refine ⟨rfl, ?_, ?_⟩
  · exact (joinW_both_always_polls_second (pollPure FutureResult.poll)
      Receiver.pollW (⟨.Err {}⟩ : FutureResult Nat RecvError) ()
      (⟨[7], false⟩ : Receiver Nat)).2 {} rfl
  · exact ((joinW_both_always_polls_second (pollPure FutureResult.poll)
      Receiver.pollW (⟨.Err {}⟩ : FutureResult Nat RecvError) ()
      (⟨[7], false⟩ : Receiver Nat)).1).trans rfl

/-- A reflexive-transitive relation preserved by single Pending steps is
preserved along any chain of Pending continuations. -/
theorem iterPending_rel {σ ρ : Type} (step : σ → RResult ρ σ)
    (rel : σ → σ → Prop) (hrefl : ∀ s, rel s s)
    (htrans : ∀ s1 s2 s3, rel s1 s2 → rel s2 s3 → rel s1 s3)
    (hstep : ∀ s s2, step s = .Err s2 → rel s s2) :
    ∀ (n : Nat) (s s2 : σ), iterPending step n s = some s2 → rel s s2 := by
  intro n
  induction n with
  | zero =>
    intro s s2 h
    simp [iterPending] at h
    exact h ▸ hrefl s
  | succ n ih =>
    intro s s2 h
    rw [iterPending] at h
    cases hs : step s with
    | Ok r => rw [hs] at h; cases h
    | Err s1 =>
      rw [hs] at h
      exact htrans s s1 s2 (hstep s s1 hs) (ih s1 s2 h)

/-- One Pending step of `AndThen.poll` never decreases the phase (in
particular, Phase B only ever yields Phase B continuations). -/
theorem andThen_poll_phase_step {A BF T B T2 E : Type} [Future A T E]
    [IntoFuture B BF T2 E] [Future BF T2 E] (s s2 : AndThen A BF T B)
    (h : AndThen.poll s = .Err s2) : s.phase ≤ s2.phase := by
  obtain ⟨st⟩ := s
  cases st with
  | First a f => simp only [AndThen.phase]; exact Nat.zero_le _
  | Second b =>
    simp only [AndThen.poll] at h
    cases hb : Future.poll b with
    | Ok r => rw [hb] at h; simp [RResult.mapErr] at h
    | Err b2 =>
      rw [hb] at h
      simp only [RResult.mapErr, RResult.Err.injEq] at h
      rw [← h]
      exact Nat.le_refl _

/-- One Pending step of `OrElse.poll` never decreases the phase. -/
theorem orElse_poll_phase_step {A BF T E B E2 : Type} [Future A T E]
    [IntoFuture B BF T E2] [Future BF T E2] (s s2 : OrElse A BF E B)
    (h : OrElse.poll s = .Err s2) : s.phase ≤ s2.phase := by
  obtain ⟨st⟩ := s
  cases st with
  | First a f => simp only [OrElse.phase]; exact Nat.zero_le _
  | Second b =>
    simp only [OrElse.poll] at h
    cases hb : Future.poll b with
    | Ok r => rw [hb] at h; simp [RResult.mapErr] at h
    | Err b2 =>
      rw [hb] at h
      simp only [RResult.mapErr, RResult.Err.injEq] at h
      rw [← h]
      exact Nat.le_refl _

/-- One Pending step of `Join.poll` moves only forward in the one-way phase
order: from `Both` anywhere, while a Done phase only re-enters itself. -/
theorem join_poll_phase_step {A B TA TB E : Type} [Future A TA E]
    [Future B TB E] (s s2 : Join A B TA TB E)
    (h : Join.poll s = .Err s2) : s.phase.le s2.phase = true := by
  obtain ⟨st⟩ := s
  cases st with
  | Both a b =>
    cases hs2 : Join.phase s2 <;> simp [Join.phase, JoinPhase.le]
  | First a sb =>
    simp only [Join.poll] at h
    cases ha : Future.poll a with
    | Ok r =>
      rw [ha] at h
      cases r <;> cases sb <;> simp at h
    | Err a2 =>
      rw [ha] at h
      cases sb with
      | Ok vb =>
        simp only [RResult.Err.injEq] at h
        rw [← h]
        rfl
      | Err e => simp at h
  | Second sa b =>
    simp only [Join.poll] at h
    cases hb : Future.poll b with
    | Ok r =>
      rw [hb] at h
      cases r <;> cases sa <;> simp at h
    | Err b2 =>
      rw [hb] at h
      cases sa with
      | Ok va =>
        simp only [RResult.Err.injEq] at h
        rw [← h]
        rfl
      | Err e => simp at h

/-- C6: over any sequence of polls, the internal phase transitions of the
composite state machines are one-way.  For `and_then` and `or_else` the
phase index (Phase A = 0, Phase B = 1) never decreases along a chain of
Pending continuations, so once the continuation function has been consumed
by the `First → Second` step — the only step that invokes it, after which the
state holds only the second sub-future — Phase A (and with it the
continuation) is never revisited.  For `join`, `Both` may move to either Done
phase but a Done phase only ever re-enters itself, never `Both` or the other
Done phase. -/
theorem composite_phases_one_way :
    (∀ (A BF T B T2 E : Type) [Future A T E] [IntoFuture B BF T2 E]
       [Future BF T2 E] (n : Nat) (s s2 : AndThen A BF T B),
       iterPending AndThen.poll n s = some s2 → s.phase ≤ s2.phase) ∧
    (∀ (A BF T E B E2 : Type) [Future A T E] [IntoFuture B BF T E2]
       [Future BF T E2] (n : Nat) (s s2 : OrElse A BF E B),
       iterPending OrElse.poll n s = some s2 → s.phase ≤ s2.phase) ∧
    (∀ (A B TA TB E : Type) [Future A TA E] [Future B TB E]
       (n : Nat) (s s2 : Join A B TA TB E),
       iterPending Join.poll n s = some s2 → s.phase.le s2.phase = true) := by
  refine ⟨?_, ?_, ?_⟩
  · intro A BF T B T2 E instA instB instBF
    exact iterPending_rel AndThen.poll _ (fun s => Nat.le_refl _)
      (fun s1 s2 s3 => Nat.le_trans) andThen_poll_phase_step
  · intro A BF T E B E2 instA instB instBF
    exact iterPending_rel OrElse.poll _ (fun s => Nat.le_refl _)
      (fun s1 s2 s3 => Nat.le_trans) orElse_poll_phase_step
  · intro A B TA TB E instA instB
    refine iterPending_rel Join.poll _ (fun s => ?_) (fun s1 s2 s3 h1 h2 => ?_)
      join_poll_phase_step
    · cases hs : s.phase <;> rfl
    · cases h1' : s1.phase <;> cases h2' : s2.phase <;> cases h3' : s3.phase <;>
        rw [h1', h2'] at h1 <;> rw [h2', h3'] at h2 <;>
        first | rfl | exact h1 | exact h2

/-- Witness for C6: an `and_then` over the never-completing future stays in
Phase A over a poll. -/
theorem composite_phases_one_way_witness :
    iterPending AndThen.poll 1
      (Future.and_then (Empty.new : Empty Nat Nat)
        (fun v => (.Ok v : RResult Nat Nat))) =
      some (Future.and_then (Empty.new : Empty Nat Nat)
        (fun v => (.Ok v : RResult Nat Nat))) ∧
    AndThen.phase (Future.and_then (Empty.new : Empty Nat Nat)
        (fun v => (.Ok v : RResult Nat Nat))) ≤
      AndThen.phase (Future.and_then (Empty.new : Empty Nat Nat)
        (fun v => (.Ok v : RResult Nat Nat))) :=
  ⟨rfl,
    composite_phases_one_way.1 (Empty Nat Nat) (FutureResult Nat Nat) Nat
      (RResult Nat Nat) Nat Nat 1
      (Future.and_then Empty.new (fun v => (.Ok v : RResult Nat Nat)))
      (Future.and_then Empty.new (fun v => (.Ok v : RResult Nat Nat))) rfl⟩

end Futures
